import Mathlib

/-!
Verification of the funding-scraper pipeline core.

A shallow embedding of the three-stage pipeline of the funding-scraper
repository (`main.py`, `ai_analyzer.py`, `database_manager.py`, the
scrapers), together with theorems settling the specification's testable
properties.

External collaborators (the Gemini classifier, the Supabase store, the
`dateutil` calendar parser, the per-site HTML fetchers) are modelled as
parameters or as the exact sentinel values the adapter code returns, taken
verbatim from the source.
-/

namespace FundingScraper

/-- `strContainsAux pat cs` is true when `pat` occurs as a contiguous
sublist of `cs`. -/
def strContainsAux (pat : List Char) : List Char → Bool
  | [] => pat.isEmpty
  | c :: cs => pat.isPrefixOf (c :: cs) || strContainsAux pat cs

/-- Substring test: `strContains s pat` models Python's `pat in s`. -/
def strContains (s pat : String) : Bool :=
  strContainsAux pat.data s.data

/-- Drop whitespace from both ends of a character list. -/
def trimList (cs : List Char) : List Char :=
  ((cs.dropWhile Char.isWhitespace).reverse.dropWhile Char.isWhitespace).reverse

/-- Normalisation applied to each location string by
`is_relevant_for_ethiopia` (main.py lines 248-249): `str(g).lower().strip()`
(lower-casing each character, then stripping surrounding whitespace). -/
def normLoc (g : String) : String :=
  String.mk (trimList (g.data.map Char.toLower))

/-- A calendar date, modelling Python's `datetime.date`. -/
structure Date where
  year : Nat
  month : Nat
  day : Nat
deriving DecidableEq, Repr

/-- `d1 < d2` on calendar dates (lexicographic year/month/day), modelling
Python's date comparison; this is also the order induced by comparing
`YYYY-MM-DD` strings lexicographically, as the Supabase `lt` filter does. -/
def dateLt (d1 d2 : Date) : Bool :=
  (d1.year < d2.year) ||
  (d1.year = d2.year && d1.month < d2.month) ||
  (d1.year = d2.year && d1.month = d2.month && d1.day < d2.day)

/-- The transient geographic-scope value produced by AI task 1
(`get_geographic_scope`): two lists of free-text location strings. -/
structure GeoScopeResult where
  eligible : List String
  excluded : List String
deriving DecidableEq, Repr

/-- What `get_geographic_scope` returns when `_call_gemini_with_retry`
exhausts its retry budget and returns `None`, or when the response holds no
valid JSON (ai_analyzer.py lines 90-106): the empty scope, not a retry
sentinel. -/
def geo_failure_result : GeoScopeResult :=
  { eligible := [], excluded := [] }

/-- The transient enrichment value produced by AI task 2
(`get_enrichment_data`).  `deadline` is an `Option` because
`enrichment_data.get('deadline')` may be absent. -/
structure EnrichmentResult where
  focus_areas : List String
  summary : String
  funding_amount : String
  funder : String
  deadline : Option String
deriving DecidableEq, Repr

/-- What `get_enrichment_data` returns when `_call_gemini_with_retry`
exhausts its retry budget and returns `None` (ai_analyzer.py lines 158-159). -/
def enrichment_failure_result : EnrichmentResult :=
  { focus_areas := []
    summary := "AI call failed after retries."
    funding_amount := "Error"
    funder := "Error"
    deadline := some "Error" }

/-- The reason component of the relevance verdict, mirroring the five
f-string reasons returned by `is_relevant_for_ethiopia` and keeping the
interpolated lists as payloads. -/
inductive Reason where
  | explicitlyExcludesEthiopia : Reason
  | explicitlyIncludesEthiopia : Reason
  | specificCountryList : List String → Reason
  | relevantGeneralScope : List String → Reason
  | noRelevantScope : List String → Reason
deriving DecidableEq, Repr

/-- The fixed allow-list of broad scopes (main.py lines 251-254). -/
def general_scopes : List String :=
  ["east africa", "horn of africa", "africa", "sub-saharan africa",
   "global", "international", "developing countries"]

/-- `is_relevant_for_ethiopia` (main.py lines 244-269): the deterministic
geography rule. -/
def is_relevant_for_ethiopia (geo_data : GeoScopeResult) : Bool × Reason :=
  let eligible := geo_data.eligible.map normLoc
  let excluded := geo_data.excluded.map normLoc
  if excluded.contains "ethiopia" then
    (false, Reason.explicitlyExcludesEthiopia)
  else if eligible.contains "ethiopia" then
    (true, Reason.explicitlyIncludesEthiopia)
  else
    let specific_countries_found := eligible.filter (fun loc => !general_scopes.contains loc)
    if !specific_countries_found.isEmpty then
      (false, Reason.specificCountryList specific_countries_found)
    else
      let acceptable_general_scopes := eligible.filter (fun scope => general_scopes.contains scope)
      if !acceptable_general_scopes.isEmpty then
        (true, Reason.relevantGeneralScope acceptable_general_scopes)
      else
        (false, Reason.noRelevantScope eligible)

/-- The processing status enum of a `RawOpportunity`. -/
inductive Status where
  | pending_analysis : Status
  | processed_relevant : Status
  | processed_irrelevant : Status
  | processed_ai_error : Status
  | processed_expired : Status
deriving DecidableEq, Repr

/-- A `{'link': ..., 'status': ...}` dict as accumulated by the processor
stage and passed to `bulk_update_raw_opportunity_statuses`. -/
structure StatusUpdate where
  link : Option String
  status : Status
deriving DecidableEq, Repr

/-- A pending `raw_opportunities` row as consumed by `analyze_opportunity`.
Fields are `Option`s where the code reads them with `.get` and a default. -/
structure Opportunity where
  title : Option String
  link : Option String
  source : Option String
  full_text : Option String
deriving DecidableEq, Repr

/-- The `final_record` dict inserted into `processed_opportunities`
(main.py lines 223-234).  `deadline` holds the parsed date: the code stores
it as a `YYYY-MM-DD` string produced by `strftime` and re-read by
`strptime`, a round-trip that is the identity on dates and is modelled as
such. -/
structure ProcessedOpportunity where
  link : Option String
  title : String
  source : Option String
  geographic_scope : String
  funding_amount : String
  funder : String
  deadline : Option Date
  raw_deadline_text : Option String
  focus_areas : String
  summary : String
deriving DecidableEq, Repr

/-- Lower-casing of a string, character by character (Python `.lower()` on
the ASCII range these inputs use). -/
def lowerStr (s : String) : String :=
  String.mk (s.data.map Char.toLower)

/-- The fixed non-date keywords of `validate_and_clean_deadline`
(main.py line 54). -/
def deadline_keywords : List String :=
  ["rolling", "ongoing", "specified", "quarterly", "n/a"]

/-- `validate_and_clean_deadline` (main.py lines 46-63).  The external
`dateutil.parser.parse` collaborator is the parameter `parse_date`, with
`none` modelling the `ValueError`/`TypeError` path; a `None` or empty
argument is rejected by the leading guard; a string containing any of the
fixed non-date keywords (checked on the lower-cased string) maps to `None`. -/
def validate_and_clean_deadline (parse_date : String → Option Date) :
    Option String → Option Date
  | none => none
  | some deadline_str =>
    if deadline_str.isEmpty then none
    else if deadline_keywords.any (fun keyword => strContains (lowerStr deadline_str) keyword) then
      none
    else
      parse_date deadline_str

/-- The value `analyze_opportunity` produces for one item: the returned
`(is_relevant, status_update)` pair, plus the at-most-one
`add_processed_opportunity` insert it performs as a side effect. -/
structure AnalyzeResult where
  is_relevant : Option Bool
  status_update : Option StatusUpdate
  db_insert : Option ProcessedOpportunity
deriving DecidableEq, Repr

/-- `analyze_opportunity` (main.py lines 180-240) as a function of the two
classifier outcomes for the item, the `dateutil` parser and the current
date.  The semaphore and logging are effect-free with respect to the
returned data and are omitted. -/
def analyze_opportunity (parse_date : String → Option Date) (today : Date)
    (opportunity : Opportunity) (geo_data : GeoScopeResult)
    (enrichment_data : EnrichmentResult) : AnalyzeResult :=
  let title := opportunity.title.getD "No Title"
  let link := opportunity.link
  let is_relevant := (is_relevant_for_ethiopia geo_data).1
  if !is_relevant then
    { is_relevant := some false
      status_update := some { link := link, status := Status.processed_irrelevant }
      db_insert := none }
  else
    let summary := enrichment_data.summary
    let funding := enrichment_data.funding_amount
    if strContains summary "AI call failed" then
      { is_relevant := none, status_update := none, db_insert := none }
    else if funding = "Error" || strContains summary "malformed JSON" ||
        strContains summary "No JSON object" then
      { is_relevant := some false
        status_update := some { link := link, status := Status.processed_ai_error }
        db_insert := none }
    else
      let raw_deadline_text := enrichment_data.deadline
      let parsed_deadline := validate_and_clean_deadline parse_date raw_deadline_text
      let expired := match parsed_deadline with
        | some deadline_date => dateLt deadline_date today
        | none => false
      if expired then
        { is_relevant := some false
          status_update := some { link := link, status := Status.processed_expired }
          db_insert := none }
      else
        let final_record : ProcessedOpportunity :=
          { link := link
            title := title
            source := opportunity.source
            geographic_scope := String.intercalate ", " geo_data.eligible
            funding_amount := enrichment_data.funding_amount
            funder := enrichment_data.funder
            deadline := parsed_deadline
            raw_deadline_text := raw_deadline_text
            focus_areas := String.intercalate ", " enrichment_data.focus_areas
            summary := enrichment_data.summary }
        { is_relevant := some true
          status_update := some { link := link, status := Status.processed_relevant }
          db_insert := some final_record }

/-- One worker outcome per pending item: `run_processor_stage` maps
`analyze_opportunity` over the pending items, each paired with the two
classifier responses obtained for it.  `as_completed` yields outcomes in a
nondeterministic order; the properties proved below are counts and are
order-independent, so list order stands in for completion order. -/
def processor_results (parse_date : String → Option Date) (today : Date)
    (items : List (Opportunity × GeoScopeResult × EnrichmentResult)) :
    List AnalyzeResult :=
  items.map (fun it => analyze_opportunity parse_date today it.1 it.2.1 it.2.2)

/-- The database writes issued by one processor run: the per-item
`add_processed_opportunity` upserts and the
`bulk_update_raw_opportunity_statuses` calls. -/
structure ProcessorTrace where
  upserts : List ProcessedOpportunity
  bulk_updates : List (List StatusUpdate)
deriving DecidableEq, Repr

/-- `run_processor_stage` (main.py lines 121-177): collect each worker's
status update into `status_updates_to_commit` (skipping `None`s), perform
the per-item inserts as the workers run, and issue a single bulk status
update at the end — none at all if the accumulated batch is empty
(`bulk_update_raw_opportunity_statuses` also returns early on an empty
list, database_manager.py lines 121-123). -/
def run_processor_stage (parse_date : String → Option Date) (today : Date)
    (items : List (Opportunity × GeoScopeResult × EnrichmentResult)) :
    ProcessorTrace :=
  let results := processor_results parse_date today items
  let status_updates_to_commit := results.filterMap AnalyzeResult.status_update
  { upserts := results.filterMap AnalyzeResult.db_insert
    bulk_updates := if status_updates_to_commit.isEmpty then [] else [status_updates_to_commit] }

/-- An item is accepted when its worker produced the `processed_relevant`
status update. -/
def is_accepted (r : AnalyzeResult) : Bool :=
  match r.status_update with
  | some u => u.status = Status.processed_relevant
  | none => false

/-- An item is rejected when its worker produced a terminal status update
other than `processed_relevant`. -/
def is_rejected (r : AnalyzeResult) : Bool :=
  match r.status_update with
  | some u => u.status ≠ Status.processed_relevant
  | none => false

/-- A raw scraped record as produced by the fetch adapters:
`{'title': ..., 'link': ..., 'source': ..., 'full_text': ...}`.  `link` is
an `Option` because the collector reads it with `opp.get('link')`. -/
structure RawOpp where
  title : String
  link : Option String
  source : String
  full_text : String
deriving DecidableEq, Repr

/-- One fetch adapter's inputs: the recent candidate links its listing pass
found, the per-run test limit (`SCRAPER_TEST_LIMIT`, 0 = unlimited), the
external detail-page fetch (title and full text, `none` on failure) and the
source label. -/
structure ScraperSpec where
  recent_links : List String
  limit : Nat
  details : String → Option (String × String)
  source : String

/-- The shared shape of `scrape_gso`/`scrape_ofy`/`scrape_od` (e.g.
gso_scraper.py lines 149-182): drop candidate links already in
`existing_links`, apply the optional test limit, then fetch details for
each remaining link, skipping failures; each returned record carries the
scraped url as its `link`. -/
def scrape_source (existing_links : List String) (s : ScraperSpec) : List RawOpp :=
  let links_to_scrape := s.recent_links.filter (fun link => !existing_links.contains link)
  let limited := if s.limit > 0 then links_to_scrape.take s.limit else links_to_scrape
  limited.filterMap (fun url =>
    (s.details url).map (fun td =>
      { title := td.1, link := some url, source := s.source, full_text := td.2 }))

/-- The cross-source deduplication loop of `run_collector_stage`
(main.py lines 103-109), with `seen_links` threaded explicitly: a record is
kept when its link is truthy (present and non-empty) and not seen yet. -/
def dedup_go (seen_links : List String) : List RawOpp → List RawOpp
  | [] => []
  | opp :: rest =>
    match opp.link with
    | none => dedup_go seen_links rest
    | some link =>
      if link.isEmpty then dedup_go seen_links rest
      else if seen_links.contains link then dedup_go seen_links rest
      else opp :: dedup_go (link :: seen_links) rest

/-- `unique_opportunities` as computed by `run_collector_stage`, starting
from an empty `seen_links` set. -/
def dedup_new_opportunities (opps : List RawOpp) : List RawOpp :=
  dedup_go [] opps

/-- The truthiness test the dedup loop applies to a record's link:
present and non-empty. -/
def link_truthy (o : RawOpp) : Bool :=
  match o.link with
  | some link => !link.isEmpty
  | none => false

/-- The database writes issued by one collector run: the
`add_raw_opportunities` bulk insert calls. -/
structure CollectorTrace where
  inserts : List (List RawOpp)
deriving DecidableEq, Repr

/-- `run_collector_stage` (main.py lines 80-117): concatenate every
scraper's output in completion order (modelled as list order), deduplicate
by link, and issue one bulk insert — none if the deduplicated list is
empty. -/
def run_collector_stage (existing_links : List String)
    (scrapers : List ScraperSpec) : CollectorTrace :=
  let all_new_raw_opportunities := (scrapers.map (scrape_source existing_links)).flatten
  let unique_opportunities := dedup_new_opportunities all_new_raw_opportunities
  { inserts := if unique_opportunities.isEmpty then [] else [unique_opportunities] }

/-- A persisted `processed_opportunities` row: the inserted record plus the
database-assigned `processed_at` timestamp that the staleness pass
compares. -/
structure ProcessedRow where
  record : ProcessedOpportunity
  processed_at : Int
deriving DecidableEq, Repr

/-- The fixed "unspecified" keyword set of `delete_stale_opportunities`
(database_manager.py line 193). -/
def stale_keywords : List String :=
  ["Not Specified", "N/A"]

/-- The deletion filter of `delete_expired_opportunities`
(database_manager.py lines 152-176): deadline non-null and strictly before
today.  The SQL `lt` on `YYYY-MM-DD` strings is date order. -/
def is_expired_row (today : Date) (row : ProcessedRow) : Bool :=
  match row.record.deadline with
  | some d => dateLt d today
  | none => false

/-- The deletion filter of `delete_stale_opportunities`
(database_manager.py lines 178-214): null deadline, raw deadline text in
the fixed keyword set (SQL `IN` is false on null), and processed before the
staleness cutoff. -/
def is_stale_row (cutoff : Int) (row : ProcessedRow) : Bool :=
  row.record.deadline = none &&
  (match row.record.raw_deadline_text with
    | some t => stale_keywords.contains t
    | none => false) &&
  row.processed_at < cutoff

/-- `delete_expired_opportunities` as a table transformer. -/
def delete_expired_opportunities (today : Date)
    (table : List ProcessedRow) : List ProcessedRow :=
  table.filter (fun row => !is_expired_row today row)

/-- `delete_stale_opportunities` as a table transformer, `cutoff` being
`now - STALE_OPPORTUNITY_MONTHS` as a timestamp. -/
def delete_stale_opportunities (cutoff : Int)
    (table : List ProcessedRow) : List ProcessedRow :=
  table.filter (fun row => !is_stale_row cutoff row)

/-- `run_maintenance_stage` (main.py lines 67-78): the expired pass, then
the stale pass. -/
def run_maintenance_stage (today : Date) (cutoff : Int)
    (table : List ProcessedRow) : List ProcessedRow :=
  delete_stale_opportunities cutoff (delete_expired_opportunities today table)

/-- A two-item run used to instantiate the batch-protocol property: one
accepted item (Ethiopia eligible, clean enrichment) and one rejected item
(specific non-Ethiopia country list). -/
def sample_items : List (Opportunity × GeoScopeResult × EnrichmentResult) :=
  [({ title := some "A", link := some "http://example.org/a", source := none,
      full_text := some "" },
    ⟨["Ethiopia"], []⟩,
    ⟨["Education"], "A summary.", "Not Specified", "Funder", some "Rolling"⟩),
   ({ title := some "B", link := some "http://example.org/b", source := none,
      full_text := some "" },
    ⟨["Kenya"], []⟩,
    ⟨["Education"], "A summary.", "Not Specified", "Funder", some "Rolling"⟩)]

end FundingScraper

namespace FundingScraper

/-- C1: if the excluded list contains Ethiopia (normalised), the verdict is
false regardless of the eligible list; otherwise, if the eligible list
contains Ethiopia, the verdict is true whatever else the excluded list
names. -/
theorem relevance_excluded_dominates_eligible (geo : GeoScopeResult) :
    ((geo.excluded.map normLoc).contains "ethiopia" = true →
      (is_relevant_for_ethiopia geo).1 = false) ∧
    ((geo.excluded.map normLoc).contains "ethiopia" = false →
      (geo.eligible.map normLoc).contains "ethiopia" = true →
      (is_relevant_for_ethiopia geo).1 = true) := by
  constructor
  · intro hex
    simp at hex
    simp [is_relevant_for_ethiopia, hex]
  · intro hex hel
    simp at hex hel
    have hex' : ¬ ∃ a ∈ geo.excluded, normLoc a = "ethiopia" := by simpa using hex
    simp [is_relevant_for_ethiopia, hex', hel]

/-- Witness for C1 at concrete inputs: `" ETHIOPIA "` in `excluded` forces a
false verdict even with `eligible = ["Ethiopia"]`; with Ethiopia only in
`eligible` and an unrelated exclusion the verdict is true. -/
theorem relevance_excluded_dominates_eligible_witness :
    (is_relevant_for_ethiopia ⟨["Ethiopia"], [" ETHIOPIA "]⟩).1 = false ∧
    (is_relevant_for_ethiopia ⟨["Ethiopia"], ["Somalia"]⟩).1 = true :=
  ⟨(relevance_excluded_dominates_eligible ⟨["Ethiopia"], [" ETHIOPIA "]⟩).1 (by decide),
   (relevance_excluded_dominates_eligible ⟨["Ethiopia"], ["Somalia"]⟩).2 (by decide) (by decide)⟩

/-- C2: when Ethiopia appears in neither list, a single eligible entry
outside the broad-scope allow-list makes the verdict false even if a broad
scope is also present; if every eligible entry is allow-listed and at least
one exists the verdict is true; an empty eligible list gives false. -/
theorem relevance_specific_list_disqualifies (geo : GeoScopeResult)
    (hex : (geo.excluded.map normLoc).contains "ethiopia" = false)
    (hel : (geo.eligible.map normLoc).contains "ethiopia" = false) :
    (((geo.eligible.map normLoc).any (fun l => !general_scopes.contains l) = true →
      (is_relevant_for_ethiopia geo).1 = false) ∧
    ((geo.eligible.map normLoc).all (fun l => general_scopes.contains l) = true →
      geo.eligible ≠ [] →
      (is_relevant_for_ethiopia geo).1 = true) ∧
    (geo.eligible = [] →
      (is_relevant_for_ethiopia geo).1 = false)) := by
  simp at hex hel
  have hex' : ¬ ∃ a ∈ geo.excluded, normLoc a = "ethiopia" := by simpa using hex
  have hel' : ¬ ∃ a ∈ geo.eligible, normLoc a = "ethiopia" := by simpa using hel
  refine ⟨?_, ?_, ?_⟩
  · intro hspec
    simp at hspec
    simp [is_relevant_for_ethiopia, hex', hel', hspec]
  · intro hall hne
    simp at hall
    obtain ⟨a, as, hEl⟩ : ∃ a as, geo.eligible = a :: as := by
      cases h : geo.eligible with
      | nil => exact absurd h hne
      | cons a as => exact ⟨a, as, rfl⟩
    have hspec : ¬ ∃ x ∈ geo.eligible, normLoc x ∉ general_scopes := by
      push_neg
      intro x hx
      exact hall x hx
    have hacc : ∃ x ∈ geo.eligible, normLoc x ∈ general_scopes := by
      refine ⟨a, by simp [hEl], hall a (by simp [hEl])⟩
    simp [is_relevant_for_ethiopia, hex', hel', hspec, hacc]
  · intro hnil
    simp [is_relevant_for_ethiopia, hex', hel', hnil]

/-- Witness for C2 at concrete inputs: `["Kenya", "Global"]` eligible is not
relevant despite the broad scope; `["East Africa", "Global"]` is relevant;
empty eligible is not relevant. -/
theorem relevance_specific_list_disqualifies_witness :
    (is_relevant_for_ethiopia ⟨["Kenya", "Global"], []⟩).1 = false ∧
    (is_relevant_for_ethiopia ⟨["East Africa", "Global"], []⟩).1 = true ∧
    (is_relevant_for_ethiopia ⟨[], ["Somalia"]⟩).1 = false :=
  ⟨(relevance_specific_list_disqualifies ⟨["Kenya", "Global"], []⟩ (by decide) (by decide)).1 (by decide),
   (relevance_specific_list_disqualifies ⟨["East Africa", "Global"], []⟩ (by decide) (by decide)).2.1
     (by decide) (by decide),
   (relevance_specific_list_disqualifies ⟨[], ["Somalia"]⟩ (by decide) (by decide)).2.2 rfl⟩

/-- C3 counterexample: when the geographic-scope call exhausts its retries,
`get_geographic_scope` returns the empty scope, and `analyze_opportunity`
emits a `processed_irrelevant` status update — the raw status does not
remain `pending_analysis`. -/
theorem geo_failure_not_pending_counterexample :
    (analyze_opportunity (fun _ => none) ⟨2025, 10, 12⟩
      { title := some "T", link := some "http://example.org/o1", source := none,
        full_text := some "" }
      geo_failure_result enrichment_failure_result).status_update =
      some { link := some "http://example.org/o1", status := Status.processed_irrelevant } := by
  decide

/-- C3 amended: an item whose enrichment call exhausts retries produces no
status update, so it stays `pending_analysis` and is retried next run; but
an item whose geographic-scope call exhausts retries gets the empty scope
result and is marked `processed_irrelevant`, not retried. -/
theorem enrichment_failure_leaves_pending (parse_date : String → Option Date)
    (today : Date) (opp : Opportunity) (geo : GeoScopeResult)
    (enrich : EnrichmentResult)
    (hrel : (is_relevant_for_ethiopia geo).1 = true)
    (htok : strContains enrich.summary "AI call failed" = true) :
    (analyze_opportunity parse_date today opp geo enrich).status_update = none ∧
    ∀ e2 : EnrichmentResult,
      (analyze_opportunity parse_date today opp geo_failure_result e2).status_update =
        some { link := opp.link, status := Status.processed_irrelevant } := by
  constructor
  · unfold analyze_opportunity
    simp [hrel, htok]
  · intro e2
    have hfail : (is_relevant_for_ethiopia geo_failure_result).1 = false := by decide
    unfold analyze_opportunity
    simp [hfail]

/-- Witness for the amended C3 at concrete inputs: a geo-relevant item with
the verbatim retry-exhaustion enrichment sentinel. -/
theorem enrichment_failure_leaves_pending_witness :
    (analyze_opportunity (fun _ => none) ⟨2025, 10, 12⟩
      { title := some "T", link := some "http://example.org/o2", source := none,
        full_text := some "" }
      ⟨["Ethiopia"], []⟩ enrichment_failure_result).status_update = none ∧
    ∀ e2 : EnrichmentResult,
      (analyze_opportunity (fun _ => none) ⟨2025, 10, 12⟩
        { title := some "T", link := some "http://example.org/o2", source := none,
          full_text := some "" }
        geo_failure_result e2).status_update =
        some { link := some "http://example.org/o2", status := Status.processed_irrelevant } :=
  enrichment_failure_leaves_pending (fun _ => none) ⟨2025, 10, 12⟩
    { title := some "T", link := some "http://example.org/o2", source := none,
      full_text := some "" }
    ⟨["Ethiopia"], []⟩ enrichment_failure_result (by decide) (by decide)

/-- C4: the retries-exhausted token (`'AI call failed' in summary`) makes
`analyze_opportunity` return no status update and write no processed row,
and — over the enrichment-outcome classification, i.e. for geo-relevant
items, the only ones for which the enrichment call is made — it is the only
branch that produces no status update. -/
theorem retry_token_only_non_update (parse_date : String → Option Date)
    (today : Date) (opp : Opportunity) (geo : GeoScopeResult)
    (enrich : EnrichmentResult) :
    ((analyze_opportunity parse_date today opp geo enrich).status_update = none ↔
      ((is_relevant_for_ethiopia geo).1 = true ∧
        strContains enrich.summary "AI call failed" = true)) ∧
    ((is_relevant_for_ethiopia geo).1 = true →
      strContains enrich.summary "AI call failed" = true →
      analyze_opportunity parse_date today opp geo enrich =
        { is_relevant := none, status_update := none, db_insert := none }) := by
  unfold analyze_opportunity
  cases hrel : (is_relevant_for_ethiopia geo).1 <;>
    cases htok : strContains enrich.summary "AI call failed" <;>
      simp [hrel, htok]
  split
  · simp
  · split <;> simp

/-- Witness for C4 at concrete inputs: a geo-relevant item with the verbatim
failure sentinel yields the all-`none` result. -/
theorem retry_token_only_non_update_witness :
    analyze_opportunity (fun _ => none) ⟨2025, 10, 12⟩
      { title := some "T", link := some "http://example.org/o3", source := none,
        full_text := some "" }
      ⟨["Ethiopia"], []⟩ enrichment_failure_result =
      { is_relevant := none, status_update := none, db_insert := none } :=
  (retry_token_only_non_update (fun _ => none) ⟨2025, 10, 12⟩
    { title := some "T", link := some "http://example.org/o3", source := none,
      full_text := some "" }
    ⟨["Ethiopia"], []⟩ enrichment_failure_result).2 (by decide) (by decide)

/-- C6: a geo-relevant item whose enrichment succeeded and whose deadline
parses to a date strictly before today gets the `processed_expired` status
update and no processed row. -/
theorem past_deadline_expires (parse_date : String → Option Date)
    (today : Date) (opp : Opportunity) (geo : GeoScopeResult)
    (enrich : EnrichmentResult) (d : Date)
    (hrel : (is_relevant_for_ethiopia geo).1 = true)
    (htok : strContains enrich.summary "AI call failed" = false)
    (herr1 : enrich.funding_amount ≠ "Error")
    (herr2 : strContains enrich.summary "malformed JSON" = false)
    (herr3 : strContains enrich.summary "No JSON object" = false)
    (hd : validate_and_clean_deadline parse_date enrich.deadline = some d)
    (hlt : dateLt d today = true) :
    analyze_opportunity parse_date today opp geo enrich =
      { is_relevant := some false
        status_update := some { link := opp.link, status := Status.processed_expired }
        db_insert := none } := by
  unfold analyze_opportunity
  simp [hrel, htok, herr1, herr2, herr3, hd, hlt]

/-- Witness for C6: the spec's concrete scenario, `deadline = "2024-01-01"`
against `today = 2025-01-01`. -/
theorem past_deadline_expires_witness :
    analyze_opportunity
      (fun s => if s = "2024-01-01" then some ⟨2024, 1, 1⟩ else none)
      ⟨2025, 1, 1⟩
      { title := some "T", link := some "http://example.org/o4", source := none,
        full_text := some "" }
      ⟨["Ethiopia"], []⟩
      ⟨["Education"], "A summary.", "Not Specified", "A funder", some "2024-01-01"⟩ =
      { is_relevant := some false
        status_update := some { link := some "http://example.org/o4",
                                status := Status.processed_expired }
        db_insert := none } :=
  past_deadline_expires
    (fun s => if s = "2024-01-01" then some ⟨2024, 1, 1⟩ else none)
    ⟨2025, 1, 1⟩
    { title := some "T", link := some "http://example.org/o4", source := none,
      full_text := some "" }
    ⟨["Ethiopia"], []⟩
    ⟨["Education"], "A summary.", "Not Specified", "A funder", some "2024-01-01"⟩
    ⟨2024, 1, 1⟩ (by decide) (by decide) (by decide) (by decide) (by decide)
    (by decide) (by decide)

/-- C7: a deadline string containing a non-date keyword (case-insensitively)
normalises to no concrete deadline; an unparseable string likewise; and any
processed row written by `analyze_opportunity` carries the original
classifier deadline string verbatim in `raw_deadline_text`. -/
theorem deadline_keywords_normalize_to_none (parse_date : String → Option Date)
    (s : String) :
    (deadline_keywords.any (fun keyword => strContains (lowerStr s) keyword) = true →
      validate_and_clean_deadline parse_date (some s) = none) ∧
    (parse_date s = none →
      validate_and_clean_deadline parse_date (some s) = none) ∧
    (∀ (today : Date) (opp : Opportunity) (geo : GeoScopeResult)
        (enrich : EnrichmentResult) (r : ProcessedOpportunity),
      (analyze_opportunity parse_date today opp geo enrich).db_insert = some r →
      r.raw_deadline_text = enrich.deadline) := by
  refine ⟨?_, ?_, ?_⟩
  · intro hkw
    unfold validate_and_clean_deadline
    simp [hkw]
  · intro hparse
    simp only [validate_and_clean_deadline]
    split
    · rfl
    · split
      · rfl
      · exact hparse
  · intro today opp geo enrich r h
    simp only [analyze_opportunity] at h
    split at h
    · simp at h
    · split at h
      · simp at h
      · split at h
        · simp at h
        · split at h
          · simp at h
          · simp at h
            subst h
            rfl

/-- Witness for C7 at concrete inputs: `"Rolling"` normalises to `none`
under any parser; an unparseable string normalises to `none`; and a
concrete accepted record preserves `raw_deadline_text` verbatim. -/
theorem deadline_keywords_normalize_to_none_witness :
    (validate_and_clean_deadline (fun _ => some ⟨2030, 1, 1⟩) (some "Rolling") = none) ∧
    (validate_and_clean_deadline (fun _ => none) (some "sometime soon") = none) ∧
    ((analyze_opportunity (fun _ => none) ⟨2025, 10, 12⟩
        { title := some "T", link := some "http://example.org/o5", source := none,
          full_text := some "" }
        ⟨["Ethiopia"], []⟩
        ⟨["Education"], "A summary.", "Not Specified", "A funder",
          some "Rolling"⟩).db_insert.map ProcessedOpportunity.raw_deadline_text =
      some (some "Rolling")) :=
  ⟨(deadline_keywords_normalize_to_none (fun _ => some ⟨2030, 1, 1⟩) "Rolling").1 (by decide),
   (deadline_keywords_normalize_to_none (fun _ => none) "sometime soon").2.1 rfl,
   by
    have h := (deadline_keywords_normalize_to_none (fun _ => none) "Rolling").2.2
      ⟨2025, 10, 12⟩
      { title := some "T", link := some "http://example.org/o5", source := none,
        full_text := some "" }
      ⟨["Ethiopia"], []⟩
      ⟨["Education"], "A summary.", "Not Specified", "A funder", some "Rolling"⟩
    cases hi : (analyze_opportunity (fun _ => none) ⟨2025, 10, 12⟩
        { title := some "T", link := some "http://example.org/o5", source := none,
          full_text := some "" }
        ⟨["Ethiopia"], []⟩
        ⟨["Education"], "A summary.", "Not Specified", "A funder",
          some "Rolling"⟩).db_insert with
    | none => exact absurd hi (by decide)
    | some r => simpa [hi] using h r hi⟩

/-- Helper: `filterMap` keeps as many elements as the `isSome` filter. -/
theorem length_filterMap_eq_length_filter {α β : Type} (f : α → Option β)
    (l : List α) :
    (l.filterMap f).length = (l.filter (fun x => (f x).isSome)).length := by
  induction l with
  | nil => rfl
  | cons a t ih => cases h : f a <;> simp [List.filterMap_cons, h, ih]

/-- Helper: `filterMap` over a list where `f` always hits keeps the length. -/
theorem length_filterMap_of_isSome {α β : Type} (f : α → Option β)
    (l : List α) (h : ∀ x ∈ l, (f x).isSome = true) :
    (l.filterMap f).length = l.length := by
  induction l with
  | nil => rfl
  | cons a t ih =>
    cases ha : f a with
    | none => exact absurd (h a (by simp)) (by simp [ha])
    | some b =>
      have ht := ih (fun x hx => h x (by simp [hx]))
      simp [List.filterMap_cons, ha, ht]

/-- Helper: `analyze_opportunity` writes a processed row exactly when its
status update is `processed_relevant`. -/
theorem db_insert_isSome_iff_accepted (parse_date : String → Option Date)
    (today : Date) (opp : Opportunity) (geo : GeoScopeResult)
    (enrich : EnrichmentResult) :
    (analyze_opportunity parse_date today opp geo enrich).db_insert.isSome =
      is_accepted (analyze_opportunity parse_date today opp geo enrich) := by
  simp only [analyze_opportunity]
  split
  · rfl
  · split
    · rfl
    · split
      · rfl
      · split
        · rfl
        · rfl

/-- C5: one processor run over items none of which are retry-later issues
exactly one bulk status-update call containing N+M entries (N accepted, M
rejected), exactly N processed-store upserts, and no bulk call at all when
the accumulated batch is empty. -/
theorem processor_one_bulk_update (parse_date : String → Option Date)
    (today : Date)
    (items : List (Opportunity × GeoScopeResult × EnrichmentResult))
    (hall : (processor_results parse_date today items).all
      (fun r => r.status_update.isSome) = true) :
    (run_processor_stage parse_date today items).upserts.length =
      ((processor_results parse_date today items).filter is_accepted).length ∧
    (items = [] → (run_processor_stage parse_date today items).bulk_updates = []) ∧
    (items ≠ [] → ∃ batch,
      (run_processor_stage parse_date today items).bulk_updates = [batch] ∧
      batch.length =
        ((processor_results parse_date today items).filter is_accepted).length +
        ((processor_results parse_date today items).filter is_rejected).length) := by
  have hall' : ∀ r ∈ processor_results parse_date today items,
      r.status_update.isSome = true := List.all_eq_true.mp hall
  have hmem : ∀ r ∈ processor_results parse_date today items,
      r.db_insert.isSome = is_accepted r := by
    intro r hr
    rcases List.mem_map.mp hr with ⟨it, _, rfl⟩
    exact db_insert_isSome_iff_accepted parse_date today it.1 it.2.1 it.2.2
  refine ⟨?_, ?_, ?_⟩
  · show ((processor_results parse_date today items).filterMap
      AnalyzeResult.db_insert).length = _
    rw [length_filterMap_eq_length_filter]
    exact congrArg List.length (List.filter_congr hmem)
  · intro hnil
    subst hnil
    rfl
  · intro hne
    have hlen : ((processor_results parse_date today items).filterMap
        AnalyzeResult.status_update).length =
        (processor_results parse_date today items).length :=
      length_filterMap_of_isSome _ _ hall'
    have hlen2 : (processor_results parse_date today items).length = items.length := by
      simp [processor_results]
    have hpos : 0 < items.length := List.length_pos.mpr hne
    have hbatchne : ((processor_results parse_date today items).filterMap
        AnalyzeResult.status_update).isEmpty = false := by
      rcases hE : (processor_results parse_date today items).filterMap
          AnalyzeResult.status_update with _ | ⟨x, xs⟩
      · rw [hE] at hlen
        simp at hlen
        rw [hlen2] at hlen
        omega
      · rfl
    refine ⟨(processor_results parse_date today items).filterMap
      AnalyzeResult.status_update, ?_, ?_⟩
    · show (if ((processor_results parse_date today items).filterMap
        AnalyzeResult.status_update).isEmpty then _ else _) = _
      rw [hbatchne]
      simp
    · have hsplit := List.length_eq_length_filter_add
        (l := processor_results parse_date today items) is_accepted
      have hcng : (processor_results parse_date today items).filter
          (fun r => !is_accepted r) =
          (processor_results parse_date today items).filter is_rejected := by
        refine List.filter_congr ?_
        intro r hr
        have hs := hall' r hr
        cases hu : r.status_update with
        | none => simp [hu] at hs
        | some u => simp [is_accepted, is_rejected, hu]
      rw [hlen, ← hcng, hsplit]

/-- Witness for C5 on the concrete two-item run (N = 1 accepted,
M = 1 rejected, no retry-later items). -/
theorem processor_one_bulk_update_witness :
    (run_processor_stage (fun _ => none) ⟨2025, 10, 12⟩ sample_items).upserts.length =
      ((processor_results (fun _ => none) ⟨2025, 10, 12⟩ sample_items).filter
        is_accepted).length ∧
    (sample_items = [] →
      (run_processor_stage (fun _ => none) ⟨2025, 10, 12⟩ sample_items).bulk_updates = []) ∧
    (sample_items ≠ [] → ∃ batch,
      (run_processor_stage (fun _ => none) ⟨2025, 10, 12⟩ sample_items).bulk_updates =
        [batch] ∧
      batch.length =
        ((processor_results (fun _ => none) ⟨2025, 10, 12⟩ sample_items).filter
          is_accepted).length +
        ((processor_results (fun _ => none) ⟨2025, 10, 12⟩ sample_items).filter
          is_rejected).length) :=
  processor_one_bulk_update (fun _ => none) ⟨2025, 10, 12⟩ sample_items (by decide)

/-- Helper: the dedup loop only returns input records. -/
theorem dedup_go_subset : ∀ (opps : List RawOpp) (seen : List String)
    (o : RawOpp), o ∈ dedup_go seen opps → o ∈ opps := by
  intro opps
  induction opps with
  | nil => intro seen o h; simp [dedup_go] at h
  | cons opp rest ih =>
    intro seen o h
    cases hlink : opp.link with
    | none =>
      simp only [dedup_go, hlink] at h
      exact List.mem_cons_of_mem _ (ih seen o h)
    | some link =>
      simp only [dedup_go, hlink] at h
      by_cases he : link.isEmpty
      · rw [if_pos he] at h
        exact List.mem_cons_of_mem _ (ih seen o h)
      · rw [if_neg he] at h
        by_cases hs : seen.contains link
        · rw [if_pos hs] at h
          exact List.mem_cons_of_mem _ (ih seen o h)
        · rw [if_neg hs] at h
          rcases List.mem_cons.mp h with h | h
          · exact h ▸ List.mem_cons_self _ _
          · exact List.mem_cons_of_mem _ (ih _ o h)

/-- Helper: every record kept by the dedup loop has a truthy link. -/
theorem dedup_go_all_truthy : ∀ (opps : List RawOpp) (seen : List String),
    (dedup_go seen opps).all link_truthy = true := by
  intro opps
  induction opps with
  | nil => intro seen; rfl
  | cons opp rest ih =>
    intro seen
    cases hlink : opp.link with
    | none => simp only [dedup_go, hlink]; exact ih seen
    | some link =>
      simp only [dedup_go, hlink]
      by_cases he : link.isEmpty
      · rw [if_pos he]; exact ih seen
      · rw [if_neg he]
        by_cases hs : seen.contains link
        · rw [if_pos hs]; exact ih seen
        · rw [if_neg hs]
          simp only [List.all_cons, Bool.and_eq_true]
          exact ⟨by simp [link_truthy, hlink, he], ih _⟩

/-- Helper: the links surviving the dedup loop are pairwise distinct and
avoid the accumulated seen-set. -/
theorem dedup_go_nodup : ∀ (opps : List RawOpp) (seen : List String),
    ((dedup_go seen opps).map RawOpp.link).Nodup ∧
    ∀ s, some s ∈ (dedup_go seen opps).map RawOpp.link → s ∉ seen := by
  intro opps
  induction opps with
  | nil => intro seen; constructor <;> simp [dedup_go]
  | cons opp rest ih =>
    intro seen
    cases hlink : opp.link with
    | none => simpa only [dedup_go, hlink] using ih seen
    | some link =>
      simp only [dedup_go, hlink]
      by_cases he : link.isEmpty
      · rw [if_pos he]; exact ih seen
      · rw [if_neg he]
        by_cases hs : seen.contains link
        · rw [if_pos hs]; exact ih seen
        · rw [if_neg hs]
          obtain ⟨ihnd, ihseen⟩ := ih (link :: seen)
          constructor
          · simp only [hlink, List.map_cons, List.nodup_cons]
            refine ⟨?_, ihnd⟩
            intro hmem
            exact (ihseen link hmem) (List.mem_cons_self _ _)
          · intro s hmem
            simp only [hlink, List.map_cons, List.mem_cons] at hmem
            rcases hmem with hmem | hmem
            · obtain rfl : s = link := Option.some.inj hmem
              intro hmem2
              exact hs (by simpa using hmem2)
            · intro hmem2
              exact (ihseen s hmem) (List.mem_cons_of_mem _ hmem2)

/-- Helper: a truthy unseen link survives the dedup loop iff it occurs in
the input. -/
theorem dedup_go_mem (l : String) (hl : l.isEmpty = false) :
    ∀ (opps : List RawOpp) (seen : List String), seen.contains l = false →
      (some l ∈ (dedup_go seen opps).map RawOpp.link ↔
        some l ∈ opps.map RawOpp.link) := by
  intro opps
  induction opps with
  | nil => intro seen _; simp [dedup_go]
  | cons opp rest ih =>
    intro seen hseen
    cases hlink : opp.link with
    | none =>
      simp only [dedup_go, hlink, List.map_cons, List.mem_cons]
      rw [ih seen hseen]
      simp [hlink]
    | some link =>
      simp only [dedup_go, hlink]
      by_cases he : link.isEmpty
      · rw [if_pos he]
        have hne : l ≠ link := by
          intro h
          rw [h] at hl
          exact absurd he (by simp [hl])
        rw [ih seen hseen]
        simp only [List.map_cons, List.mem_cons, hlink]
        constructor
        · exact Or.inr
        · rintro (h | h)
          · exact absurd (Option.some.inj h) hne
          · exact h
      · rw [if_neg he]
        by_cases hs : seen.contains link
        · rw [if_pos hs]
          have hne : l ≠ link := by
            intro h
            rw [← h] at hs
            rw [hseen] at hs
            exact Bool.false_ne_true hs
          rw [ih seen hseen]
          simp only [List.map_cons, List.mem_cons, hlink]
          constructor
          · exact Or.inr
          · rintro (h | h)
            · exact absurd (Option.some.inj h) hne
            · exact h
        · rw [if_neg hs]
          by_cases hll : l = link
          · subst hll
            simp [List.map_cons, hlink]
          · have hseen' : (link :: seen).contains l = false := by
              simp only [List.contains_cons, Bool.or_eq_false_iff]
              exact ⟨beq_eq_false_iff_ne.mpr hll, hseen⟩
            simp only [List.map_cons, List.mem_cons, hlink]
            rw [ih (link :: seen) hseen']

/-- Helper: the first record bearing a truthy unseen link survives the
dedup loop as the surviving occurrence. -/
theorem dedup_go_find (l : String) (hl : l.isEmpty = false) :
    ∀ (opps : List RawOpp) (seen : List String), seen.contains l = false →
      (dedup_go seen opps).find? (fun o => o.link = some l) =
        opps.find? (fun o => o.link = some l) := by
  intro opps
  induction opps with
  | nil => intro seen _; simp [dedup_go]
  | cons opp rest ih =>
    intro seen hseen
    cases hlink : opp.link with
    | none =>
      simp only [dedup_go, hlink]
      rw [ih seen hseen, List.find?_cons_of_neg _ (by simp [hlink])]
    | some link =>
      simp only [dedup_go, hlink]
      by_cases he : link.isEmpty
      · rw [if_pos he]
        have hne : link ≠ l := by
          intro h
          rw [h, hl] at he
          exact Bool.false_ne_true he
        rw [ih seen hseen, List.find?_cons_of_neg _ (by simp [hlink, hne])]
      · rw [if_neg he]
        by_cases hs : seen.contains link
        · rw [if_pos hs]
          have hne : link ≠ l := by
            intro h
            rw [h, hseen] at hs
            exact Bool.false_ne_true hs
          rw [ih seen hseen, List.find?_cons_of_neg _ (by simp [hlink, hne])]
        · rw [if_neg hs]
          by_cases hll : link = l
          · subst hll
            rw [List.find?_cons_of_pos _ (by simp [hlink]),
              List.find?_cons_of_pos _ (by simp [hlink])]
          · have hseen' : (link :: seen).contains l = false := by
              simp only [List.contains_cons, Bool.or_eq_false_iff]
              exact ⟨beq_eq_false_iff_ne.mpr (fun h => hll h.symm), hseen⟩
            rw [List.find?_cons_of_neg _ (by simp [hlink, hll]),
              List.find?_cons_of_neg _ (by simp [hlink, hll])]
            exact ih (link :: seen) hseen'

/-- Helper: every record a scraper returns carries a url absent from the
known-link set. -/
theorem scrape_source_not_known (existing_links : List String)
    (s : ScraperSpec) (o : RawOpp) (ho : o ∈ scrape_source existing_links s) :
    ∃ url, o.link = some url ∧ existing_links.contains url = false := by
  simp only [scrape_source] at ho
  rcases List.mem_filterMap.mp ho with ⟨url, hurl, hmk⟩
  rcases Option.map_eq_some.mp hmk with ⟨td, _, rfl⟩
  refine ⟨url, rfl, ?_⟩
  have hfil : url ∈ s.recent_links.filter (fun link => !existing_links.contains link) := by
    by_cases hlim : s.limit > 0
    · rw [if_pos hlim] at hurl
      exact List.mem_of_mem_take hurl
    · rwa [if_neg hlim] at hurl
  have := (List.mem_filter.mp hfil).2
  simpa using this

/-- Helper: in a duplicate-free list, a member is hit by the equality filter
exactly once. -/
theorem length_filter_eq_one_of_nodup_mem {α : Type} [DecidableEq α]
    {l : List α} {a : α} (hn : l.Nodup) (ha : a ∈ l) :
    (l.filter (fun x => x = a)).length = 1 := by
  induction l with
  | nil => simp at ha
  | cons b t ih =>
    rcases List.nodup_cons.mp hn with ⟨hb, ht⟩
    rcases List.mem_cons.mp ha with rfl | hat
    · have hnil : t.filter (fun x => x = a) = [] := by
        apply List.filter_eq_nil_iff.mpr
        intro x hx
        simp only [decide_eq_true_eq]
        intro h
        exact hb (h ▸ hx)
      simp [List.filter_cons, hnil]
    · have hba : ¬(b = a) := fun h => hb (h ▸ hat)
      simp [List.filter_cons, hba, ih ht hat]

/-- C8: a link occurring in several sources' outputs survives reconciliation
in exactly one record, namely its first occurrence in completion order; every
record reaching the bulk insert carries a url absent from the known-link set
(the scrapers filter against it); and an empty deduplicated list produces no
insert call. -/
theorem collector_dedup_and_known_filter :
    (∀ (opps : List RawOpp) (l : String), l.isEmpty = false →
      some l ∈ opps.map RawOpp.link →
      (((dedup_new_opportunities opps).map RawOpp.link).filter
        (fun x => x = some l)).length = 1 ∧
      (dedup_new_opportunities opps).find? (fun o => o.link = some l) =
        opps.find? (fun o => o.link = some l)) ∧
    (∀ (existing_links : List String) (scrapers : List ScraperSpec)
        (batch : List RawOpp) (o : RawOpp),
      batch ∈ (run_collector_stage existing_links scrapers).inserts →
      o ∈ batch →
      ∃ url, o.link = some url ∧ existing_links.contains url = false) ∧
    (∀ (existing_links : List String) (scrapers : List ScraperSpec),
      dedup_new_opportunities
        ((scrapers.map (scrape_source existing_links)).flatten) = [] →
      (run_collector_stage existing_links scrapers).inserts = []) := by
  refine ⟨?_, ?_, ?_⟩
  · intro opps l hl hmem
    have hcount : some l ∈ (dedup_new_opportunities opps).map RawOpp.link :=
      (dedup_go_mem l hl opps [] rfl).mpr hmem
    exact ⟨length_filter_eq_one_of_nodup_mem (dedup_go_nodup opps []).1 hcount,
      dedup_go_find l hl opps [] rfl⟩
  · intro existing_links scrapers batch o hbatch ho
    simp only [run_collector_stage] at hbatch
    split at hbatch
    · simp at hbatch
    · simp only [List.mem_singleton] at hbatch
      subst hbatch
      have hall : o ∈ (scrapers.map (scrape_source existing_links)).flatten :=
        dedup_go_subset _ [] o ho
      rcases List.mem_flatten.mp hall with ⟨sub, hsub, hosub⟩
      rcases List.mem_map.mp hsub with ⟨s, _, rfl⟩
      exact scrape_source_not_known existing_links s o hosub
  · intro existing_links scrapers hnil
    simp [run_collector_stage, hnil]

/-- Witness for C8: a link cross-posted by two sources survives once, as its
first occurrence; a record scraped past a known-link set has a url outside
it; the empty run performs no insert. -/
theorem collector_dedup_and_known_filter_witness :
    ((((dedup_new_opportunities
        [⟨"T1", some "http://x", "GSO", "a"⟩, ⟨"T2", some "http://x", "OD", "b"⟩]).map
      RawOpp.link).filter (fun x => x = some "http://x")).length = 1 ∧
     (dedup_new_opportunities
        [⟨"T1", some "http://x", "GSO", "a"⟩, ⟨"T2", some "http://x", "OD", "b"⟩]).find?
        (fun o => o.link = some "http://x") =
      [(⟨"T1", some "http://x", "GSO", "a"⟩ : RawOpp),
       ⟨"T2", some "http://x", "OD", "b"⟩].find? (fun o => o.link = some "http://x")) ∧
    (∃ url, (⟨"T", some "http://new", "GSO", "body"⟩ : RawOpp).link = some url ∧
      (["http://known"] : List String).contains url = false) ∧
    (run_collector_stage [] []).inserts = [] :=
  ⟨collector_dedup_and_known_filter.1
      [⟨"T1", some "http://x", "GSO", "a"⟩, ⟨"T2", some "http://x", "OD", "b"⟩]
      "http://x" (by decide) (by decide),
   collector_dedup_and_known_filter.2.1 ["http://known"]
      [⟨["http://known", "http://new"], 0, fun _ => some ("T", "body"), "GSO"⟩]
      [⟨"T", some "http://new", "GSO", "body"⟩]
      ⟨"T", some "http://new", "GSO", "body"⟩ (by decide) (by decide),
   collector_dedup_and_known_filter.2.2 [] [] rfl⟩

/-- C10: every record surviving reconciliation — in particular every record
in a batch passed to the raw-store insert — has a present, non-empty link;
records with a missing, null or empty link are dropped by the dedup loop. -/
theorem dedup_drops_falsy_links :
    (∀ opps : List RawOpp,
      (dedup_new_opportunities opps).all link_truthy = true) ∧
    (∀ (existing_links : List String) (scrapers : List ScraperSpec)
        (batch : List RawOpp),
      batch ∈ (run_collector_stage existing_links scrapers).inserts →
      batch.all link_truthy = true) := by
  refine ⟨fun opps => dedup_go_all_truthy opps [], ?_⟩
  intro existing_links scrapers batch hbatch
  simp only [run_collector_stage] at hbatch
  split at hbatch
  · simp at hbatch
  · simp only [List.mem_singleton] at hbatch
    subst hbatch
    exact dedup_go_all_truthy _ []

/-- Witness for C10: records with `none` and `""` links are dropped, and the
concrete collector batch passes the truthy-link check. -/
theorem dedup_drops_falsy_links_witness :
    (dedup_new_opportunities
      [⟨"T", none, "GSO", "x"⟩, ⟨"U", some "", "OD", "y"⟩,
       ⟨"V", some "http://v", "OD", "z"⟩]).all link_truthy = true ∧
    ([(⟨"T", some "http://v", "GSO", "b"⟩ : RawOpp)]).all link_truthy = true :=
  ⟨dedup_drops_falsy_links.1
      [⟨"T", none, "GSO", "x"⟩, ⟨"U", some "", "OD", "y"⟩,
       ⟨"V", some "http://v", "OD", "z"⟩],
   dedup_drops_falsy_links.2 []
      [⟨["http://v"], 0, fun _ => some ("T", "b"), "GSO"⟩]
      [⟨"T", some "http://v", "GSO", "b"⟩] (by decide)⟩

/-- C9: the maintenance sweep is idempotent — a second invocation with no
intervening writes deletes nothing — and after one sweep no surviving row is
expired and none satisfies the stale-unspecified condition. -/
theorem maintenance_sweep_idempotent (today : Date) (cutoff : Int)
    (table : List ProcessedRow) :
    run_maintenance_stage today cutoff (run_maintenance_stage today cutoff table) =
      run_maintenance_stage today cutoff table ∧
    (run_maintenance_stage today cutoff table).all
      (fun row => !is_expired_row today row) = true ∧
    (run_maintenance_stage today cutoff table).all
      (fun row => !is_stale_row cutoff row) = true := by
  refine ⟨?_, ?_, ?_⟩
  · simp only [run_maintenance_stage, delete_stale_opportunities,
      delete_expired_opportunities, List.filter_filter]
    refine List.filter_congr ?_
    intro x _
    cases hx : is_stale_row cutoff x <;> cases hy : is_expired_row today x <;>
      simp [hx, hy]
  · rw [List.all_eq_true]
    intro row hrow
    have h1 : row ∈ delete_expired_opportunities today table :=
      (List.mem_filter.mp hrow).1
    exact (List.mem_filter.mp h1).2
  · rw [List.all_eq_true]
    intro row hrow
    exact (List.mem_filter.mp hrow).2

end FundingScraper
